import Mathlib

/-!
Verification of the deepresearch mission-execution pipeline.

Shallow embedding of the TypeScript sources:
  - src/lib/types.ts            (data model)
  - src/lib/research-pipeline.ts (planner, step executor, mission runner, synthesizer)
  - src/lib/openai-search.ts     (search adapter retry logic, rate limiter)
  - the ResearchAgent orchestrator (startResearch)

Modelling conventions, used throughout:
  - Provider calls (LLM completions, web searches) are nondeterministic
    external effects; each is passed in as an explicit outcome value
    (an Except for a call that can throw, a function from attempt or
    step index to outcomes for repeated calls).
  - JavaScript exceptions become Except values or explicit Bool/Option
    flags; in-place object mutation becomes explicit state passing.
  - Random id generation (generateId) is injected as a function
    idGen : Nat -> String giving the n-th generated id.
  - Date-valued fields (createdAt, updatedAt, startedAt, completedAt)
    carry no information any verified property depends on and are
    omitted from the structures.
  - The summary text, which the source builds by string concatenation
    and later searches for a fixed trailer substring, is embedded as a
    list of SummaryPart fragments, one per concatenated piece in the
    source; presence of the trailer substring becomes list membership
    of the trailer fragment.
-/

namespace DeepResearch

/-- Mission status enum from types.ts. -/
inductive MissionStatus
  | pending
  | planning
  | researching
  | completed
  | error
deriving DecidableEq, Repr

/-- Step status enum from types.ts. -/
inductive StepStatus
  | pending
  | executing
  | completed
  | error
deriving DecidableEq, Repr

/-- Priority enum from types.ts. -/
inductive Priority
  | high
  | medium
  | low
deriving DecidableEq, Repr

/-- SearchResult from types.ts. The score is a JS number used only as
opaque data by the verified code paths; it is embedded as a rational. -/
structure SearchResult where
  title : String
  url : String
  content : String
  score : ℚ
  publishedDate : Option String := none
deriving DecidableEq, Repr

/-- ResearchStep from types.ts (Date fields omitted, see header). -/
structure ResearchStep where
  id : String
  title : String
  description : String
  query : Option String := none
  status : StepStatus
  priority : Option Priority := none
  estimatedDuration : Option String := none
  results : Option (List SearchResult) := none
  error : Option String := none
deriving DecidableEq, Repr

/-- One fragment of a summary string, mirroring the concatenation
structure of generateBasicSummary / generateSummary in
research-pipeline.ts. Each constructor stands for one piece the source
appends:
  header t        : "Research completed on: t" plus blank line
  completedLine c n : "Successfully completed c of n research steps."
  findingsHeader  : "Key findings include:"
  findingLine i f : "i. f" (one numbered key finding)
  trailer         : the "Generating comprehensive analysis..." trailer
  failNotice      : the "Comprehensive analysis failed to generate" notice
  noFindings t    : the "No significant findings were gathered" message
  comprehensive s : the LLM-authored comprehensive analysis text s -/
inductive SummaryPart
  | header (title : String)
  | completedLine (c n : Nat)
  | findingsHeader
  | findingLine (i : Nat) (f : String)
  | trailer
  | failNotice
  | noFindings (title : String)
  | comprehensive (text : String)
deriving DecidableEq, Repr

/-- ResearchResults from types.ts, with the summary embedded as a list
of SummaryPart fragments. -/
structure ResearchResults where
  summary : List SummaryPart
  keyFindings : List String
  sources : List SearchResult
  recommendations : List String := []
  completedSteps : Nat
  totalSteps : Nat
  isGeneratingComprehensiveAnalysis : Bool := false
deriving DecidableEq, Repr

/-- ResearchMission from types.ts (Date fields omitted). -/
structure ResearchMission where
  id : String
  title : String
  description : String
  status : MissionStatus
  steps : List ResearchStep
  results : Option ResearchResults := none
deriving DecidableEq, Repr

/-- One step description as produced by the provider in
generateResearchSteps (tavily.ts): title, description, priority and
estimated duration. -/
structure AIStep where
  title : String
  description : String
  priority : Priority
  estimatedDuration : String
deriving DecidableEq, Repr

/-! Step planner: ResearchPipeline.planResearchSteps and
createFallbackSteps from research-pipeline.ts. -/

/-- ResearchPipeline.createStep: builds a pending step. The id argument
stands for the generateId() call. -/
def createStep (id title description : String) (priority : Option Priority)
    (estimatedDuration : Option String) : ResearchStep :=
  { id := id, title := title, description := description,
    status := StepStatus.pending, priority := priority,
    estimatedDuration := estimatedDuration }

/-- ResearchPipeline.createFallbackSteps: the fixed 5-step template.
Only the first description interpolates the mission topic; the other
four are fixed strings, exactly as in the source. -/
def createFallbackSteps (idGen : Nat → String) (mission : String) : List ResearchStep :=
  [ createStep (idGen 0) "Foundation Research"
      ("Research basic information and overview of " ++ mission)
      (some Priority.high) (some "1-2 hours"),
    createStep (idGen 1) "Detailed Analysis"
      "Conduct detailed analysis of key aspects"
      (some Priority.high) (some "2-3 hours"),
    createStep (idGen 2) "Current Status"
      "Research current status and recent developments"
      (some Priority.medium) (some "1 hour"),
    createStep (idGen 3) "Expert Insights"
      "Gather expert opinions and insights"
      (some Priority.medium) (some "1-2 hours"),
    createStep (idGen 4) "Summary & Validation"
      "Validate findings and create summary"
      (some Priority.high) (some "30 minutes") ]

/-- ResearchPipeline.planResearchSteps. The provider argument is the
outcome of the awaited generateResearchSteps call: an error value when
that call throws (then the catch branch returns the fallback steps), or
the returned array of AI steps, which the try branch converts with
createStep one by one. The source has no further guard: an empty
provider array maps to an empty step list. -/
def planResearchSteps (idGen : Nat → String) (mission : String)
    (provider : Except String (List AIStep)) : List ResearchStep :=
  match provider with
  | Except.ok aiSteps =>
      aiSteps.enum.map (fun p =>
        createStep (idGen p.1) p.2.title p.2.description
          (some p.2.priority) (some p.2.estimatedDuration))
  | Except.error _ => createFallbackSteps idGen mission

/-! Search provider adapter: OpenAISearchClient from openai-search.ts. -/

/-- OpenAISearchResponse from types.ts. -/
structure OpenAISearchResponse where
  query : String
  answer : String
  sources : List SearchResult
  response_time : ℚ
deriving DecidableEq, Repr

instance {ε α : Type} [DecidableEq ε] [DecidableEq α] : DecidableEq (Except ε α) :=
  fun x y =>
    match x, y with
    | Except.ok a, Except.ok b =>
        if h : a = b then Decidable.isTrue (by rw [h])
        else Decidable.isFalse (by intro hc; cases hc; exact h rfl)
    | Except.error a, Except.error b =>
        if h : a = b then Decidable.isTrue (by rw [h])
        else Decidable.isFalse (by intro hc; cases hc; exact h rfl)
    | Except.ok _, Except.error _ => Decidable.isFalse (by intro hc; cases hc)
    | Except.error _, Except.ok _ => Decidable.isFalse (by intro hc; cases hc)

/-- Trace of one OpenAISearchClient.searchWithRetry run: the final
result, how many times search was invoked, and the backoff delays (in
milliseconds) slept between consecutive failed attempts, in order. -/
structure RetryTrace where
  result : Except String OpenAISearchResponse
  calls : Nat
  delays : List Nat
deriving DecidableEq, Repr

/-- Loop body of OpenAISearchClient.searchWithRetry. The attempts
argument gives the outcome of the n-th search call (counted from 1,
like the attempt variable of the source loop); lastError holds the
error of the previous failed attempt (none before the first attempt,
modelling the undefined initial value of the lastError variable). The
fuel counts the remaining loop iterations: searchWithRetry starts it at
maxRetries, so fuel runs out exactly when the loop condition
attempt <= maxRetries fails, whereupon the source throws lastError. On
a failed attempt equal to maxRetries the loop breaks and rethrows that
error; otherwise it sleeps 2 ^ attempt * 1000 milliseconds and
retries. -/
def searchWithRetryGo (attempts : Nat → Except String OpenAISearchResponse)
    (maxRetries : Nat) : Nat → Nat → Option String → RetryTrace
  | _, 0, lastError => ⟨Except.error (lastError.getD "undefined"), 0, []⟩
  | attempt, fuel + 1, _ =>
      match attempts attempt with
      | Except.ok r => ⟨Except.ok r, 1, []⟩
      | Except.error e =>
          if attempt = maxRetries then ⟨Except.error e, 1, []⟩
          else
            let t := searchWithRetryGo attempts maxRetries (attempt + 1) fuel (some e)
            ⟨t.result, t.calls + 1, 2 ^ attempt * 1000 :: t.delays⟩

/-- OpenAISearchClient.searchWithRetry (retry skeleton; the search call
itself is the external outcome function). The default maxRetries is 3,
as in the source. -/
def searchWithRetry (attempts : Nat → Except String OpenAISearchResponse)
    (maxRetries : Nat := 3) : RetryTrace :=
  searchWithRetryGo attempts maxRetries 1 maxRetries none

/-- Loop of the embedding of the JS String.split with a nonempty
string separator: scans the characters left to right, cutting at each
non-overlapping occurrence of the separator. The fuel is the length of
the scanned list (each iteration consumes at least one character), so
the fuel-exhausted branch is unreachable; the function is structurally
recursive so that concrete runs reduce in the kernel. -/
def jsSplitGo (sep : List Char) : Nat → List Char → List Char → List (List Char)
  | _, [], acc => [acc.reverse]
  | 0, rest, acc => [acc.reverse ++ rest]
  | fuel + 1, c :: rest, acc =>
      if sep.isPrefixOf (c :: rest) then
        acc.reverse :: jsSplitGo sep fuel ((c :: rest).drop sep.length) []
      else jsSplitGo sep fuel rest (c :: acc)

/-- Embedding of the JS String.split with a nonempty string separator. -/
def jsSplit (str sep : String) : List String :=
  (jsSplitGo sep.toList str.toList.length str.toList []).map String.mk

/-- ASCII lowercase of one character, the kernel-evaluable embedding
of the JS toLowerCase on the ASCII range the source compares against. -/
def lowerChar (c : Char) : Char :=
  if 'A' ≤ c ∧ c ≤ 'Z' then Char.ofNat (c.toNat + 32) else c

/-- ASCII lowercase of a string. -/
def lowerString (s : String) : String := String.mk (s.toList.map lowerChar)

/-- Word-level model of the filler-removal regex of
OpenAISearchClient.optimizeQuery: drops the case-insensitive filler
phrases "how to", "what is", "explain", "research", "find", "about"
from a whitespace-split word list. -/
def removeFillerWords : List String → List String
  | [] => []
  | [w] =>
      if lowerString w = "explain" ∨ lowerString w = "research" ∨ lowerString w = "find"
          ∨ lowerString w = "about" then [] else [w]
  | w1 :: w2 :: rest =>
      if (lowerString w1 = "how" ∧ lowerString w2 = "to")
          ∨ (lowerString w1 = "what" ∧ lowerString w2 = "is") then
        removeFillerWords rest
      else if lowerString w1 = "explain" ∨ lowerString w1 = "research"
          ∨ lowerString w1 = "find" ∨ lowerString w1 = "about" then
        removeFillerWords (w2 :: rest)
      else w1 :: removeFillerWords (w2 :: rest)

/-- OpenAISearchClient.optimizeQuery: appends the context to the step
text when present, strips filler words and collapses whitespace (here:
split on spaces, drop empties and filler, rejoin), and falls back to
the unmodified step text when the cleaned query is shorter than 3
characters. -/
def optimizeQuery (step : String) (context : Option String) : String :=
  let query := match context with
    | some c => step ++ " " ++ c
    | none => step
  let cleaned := String.intercalate " "
    (removeFillerWords ((jsSplit query " ").filter (fun w => decide (w ≠ ""))))
  if cleaned.length < 3 then step else cleaned

/-- OpenAISearchClient.processResults: returns the normalized sources of
the response unchanged. -/
def processResults (response : OpenAISearchResponse) : List SearchResult :=
  response.sources

/-- OpenAISearchClient.generateComprehensiveAnalysis. The completion
argument is the outcome of the chat-completion call: an error when the
call throws (the catch branch rethrows a fixed message), otherwise the
content field, where none stands for a missing or null content and the
empty string is falsy in JS, so both fall back to the placeholder
string via the JS or-default expression in the source. -/
def generateComprehensiveAnalysis (completion : Except String (Option String)) :
    Except String String :=
  match completion with
  | Except.error _ => Except.error "Failed to generate comprehensive analysis"
  | Except.ok content =>
      Except.ok (match content with
        | none => "No analysis generated"
        | some s => if s = "" then "No analysis generated" else s)

/-! Rate limiter: the RateLimiter class of openai-search.ts. Wall-clock
time is embedded as a logical clock: waitIfNeeded takes the current
Date.now value and returns the new recorded-timestamp list together
with the time slept before returning. -/

/-- RateLimiter.waitIfNeeded: discards recorded timestamps at least
timeWindow old, then, when at least maxRequests timestamps remain,
sleeps for timeWindow minus the age of the oldest retained timestamp
(when positive), and finally records the entry timestamp now. Returns
the new timestamp list and the sleep duration in milliseconds. The
headD 0 default is never reached when maxRequests is at least 1. -/
def waitIfNeeded (maxRequests : Nat) (timeWindow : Int)
    (requests : List Int) (now : Int) : List Int × Int :=
  let kept := requests.filter (fun t => decide (now - t < timeWindow))
  let wait : Int :=
    if kept.length ≥ maxRequests then
      let oldest := kept.headD 0
      let waitTime := timeWindow - (now - oldest)
      if waitTime > 0 then waitTime else 0
    else 0
  (kept ++ [now], wait)

/-! Step executor and mission runner: ResearchPipeline.executeStep and
executeResearchPlan from research-pipeline.ts. -/

/-- Outcome of one searchWithRetry call made on behalf of a step:
either the processed search results, or the message of the error the
exhausted retries rethrew. -/
inductive StepOutcome
  | success (results : List SearchResult)
  | failure (msg : String)
deriving DecidableEq, Repr

/-- ResearchPipeline.executeStep. Mirrors the source order: mark the
step executing, compute and store the optimized query, then run the
search. On success, store the processed results, mark completed; on
failure, the catch branch marks the step error, stores the message and
rethrows. The returned Option String is the rethrown error (none when
the step succeeded); the returned step is the mutated step object as
the caller sees it in both cases. -/
def executeStep (step : ResearchStep) (context : Option String)
    (outcome : StepOutcome) : ResearchStep × Option String :=
  let s1 := { step with status := StepStatus.executing,
                        query := some (optimizeQuery step.description context) }
  match outcome with
  | StepOutcome.success rs =>
      ({ s1 with results := some rs, status := StepStatus.completed }, none)
  | StepOutcome.failure msg =>
      ({ s1 with status := StepStatus.error, error := some msg }, some msg)

/-- ResearchPipeline.summarizeStepResults: concatenates the first 200
characters of the content of the top 3 results, joined by spaces;
empty when the step has no results. -/
def summarizeStepResults (step : ResearchStep) : String :=
  match step.results with
  | none => ""
  | some rs =>
      if rs.length = 0 then ""
      else String.intercalate " " ((rs.take 3).map (fun r => r.content.take 200))

/-- One recorded invocation of the onStepComplete callback of
executeResearchPlan: the completed step and the progress percentage it
was called with. -/
structure CallbackEvent where
  step : ResearchStep
  progress : ℚ
deriving DecidableEq, Repr

/-- Loop of ResearchPipeline.executeResearchPlan over the steps.
Arguments: total step count (fixed before the loop), the per-index
search outcomes, the remaining steps, the accumulated context string,
and the current index. Returns the updated steps and the list of
onStepComplete invocations, in order. A throwing step is caught: the
mutated (error-marked) step stays in the array, the context is not
extended and no callback fires; a successful step extends the context
with its digest when it has results, and fires the callback with
progress (i + 1) / total * 100. -/
def executeResearchPlanGo (total : Nat) (outcomes : Nat → StepOutcome) :
    List ResearchStep → String → Nat → List ResearchStep × List CallbackEvent
  | [], _, _ => ([], [])
  | step :: rest, context, i =>
      match executeStep step (some context) (outcomes i) with
      | (step1, some _) =>
          let t := executeResearchPlanGo total outcomes rest context (i + 1)
          (step1 :: t.1, t.2)
      | (step1, none) =>
          let context1 :=
            if 0 < (step1.results.getD []).length then
              context ++ " " ++ summarizeStepResults step1
            else context
          let progress := ((i : ℚ) + 1) / (total : ℚ) * 100
          let t := executeResearchPlanGo total outcomes rest context1 (i + 1)
          (step1 :: t.1, ⟨step1, progress⟩ :: t.2)

/-! Fast-phase result synthesizer helpers from research-pipeline.ts. -/

/-- All SourceResults aggregated across the steps of a mission, in step
order, as collected by the forEach push loop of generateBasicResults. -/
def aggregatedResults (steps : List ResearchStep) : List SearchResult :=
  steps.flatMap (fun s => s.results.getD [])

/-- Loop of ResearchPipeline.removeDuplicateResults: the filter with a
seen set, keeping a result only when its url was not seen before. -/
def removeDupGo (seen : List String) : List SearchResult → List SearchResult
  | [] => []
  | r :: rs =>
      if r.url ∈ seen then removeDupGo seen rs
      else r :: removeDupGo (r.url :: seen) rs

/-- ResearchPipeline.removeDuplicateResults. -/
def removeDuplicateResults (results : List SearchResult) : List SearchResult :=
  removeDupGo [] results

/-- Sentence selection of ResearchPipeline.extractKeyFindings: split
the content on ". " and take the first sentence of length strictly
greater than 50 and strictly less than 200 (the source comparison is
s.length > 50 && s.length < 200). -/
def meaningfulSentence (content : String) : Option String :=
  (jsSplit content ". ").find?
    (fun s => decide (50 < s.length) && decide (s.length < 200))

/-- ResearchPipeline.extractKeyFindings: one finding per completed step
with a nonempty result list whose top result has nonempty content and a
meaningful sentence, pushed as "title: sentence" in step order. -/
def extractKeyFindings (steps : List ResearchStep) : List String :=
  steps.filterMap (fun step =>
    if step.status = StepStatus.completed ∧ 0 < (step.results.getD []).length then
      match (step.results.getD []).head? with
      | some topResult =>
          if topResult.content ≠ "" then
            (meaningfulSentence topResult.content).map
              (fun s => step.title ++ ": " ++ s)
          else none
      | none => none
    else none)

/-- ResearchPipeline.generateBasicSummary, fragment by fragment: the
header, the completed-count line, the numbered key findings when any,
and the generating-comprehensive-analysis trailer. -/
def generateBasicSummary (mission : ResearchMission) (keyFindings : List String) :
    List SummaryPart :=
  let c := (mission.steps.filter
    (fun s => decide (s.status = StepStatus.completed))).length
  [SummaryPart.header mission.title, SummaryPart.completedLine c mission.steps.length]
    ++ (if 0 < keyFindings.length then
          SummaryPart.findingsHeader ::
            keyFindings.enum.map (fun p => SummaryPart.findingLine (p.1 + 1) p.2)
        else [])
    ++ [SummaryPart.trailer]

/-- Decidable substring containment over the character lists of two
strings, the embedding of the JS String.includes test. -/
def strIncludes (s sub : String) : Bool :=
  (s.toList.tails).any (fun t => sub.toList.isPrefixOf t)

/-- ResearchPipeline.generateRecommendations. -/
def generateRecommendations (steps : List ResearchStep) : List String :=
  let completedSteps := steps.filter (fun s => decide (s.status = StepStatus.completed))
  if 0 < completedSteps.length then
    ["Review the comprehensive research findings above",
     "Cross-reference multiple sources for validation"]
      ++ (if 3 ≤ completedSteps.length then
            ["Consider the expert opinions and case studies identified"]
          else [])
      ++ (if completedSteps.any (fun s => strIncludes (lowerString s.title) "trend") then
            ["Monitor ongoing trends and developments in this area"]
          else [])
  else []

/-- ResearchPipeline.generateBasicResults (the fast phase): aggregate
all step results, dedup by url, cap the sources at 20, extract key
findings, build the basic summary and recommendations, and raise the
isGeneratingComprehensiveAnalysis flag. -/
def generateBasicResults (mission : ResearchMission) : ResearchResults :=
  let completedSteps := (mission.steps.filter
    (fun s => decide (s.status = StepStatus.completed))).length
  let uniqueResults := removeDuplicateResults (aggregatedResults mission.steps)
  let keyFindings := extractKeyFindings mission.steps
  { summary := generateBasicSummary mission keyFindings,
    keyFindings := keyFindings,
    sources := uniqueResults.take 20,
    recommendations := generateRecommendations mission.steps,
    completedSteps := completedSteps,
    totalSteps := mission.steps.length,
    isGeneratingComprehensiveAnalysis := true }

/-- ResearchPipeline.executeResearchPlan: run every step in order
(continuing past failures), then attach the fast-phase results, mark
the mission completed and return it together with the recorded
onStepComplete invocations. The comprehensive phase the source fires
and forgets here is modelled separately by
generateComprehensiveSummaryAsync. -/
def executeResearchPlan (mission : ResearchMission) (outcomes : Nat → StepOutcome) :
    ResearchMission × List CallbackEvent :=
  let t := executeResearchPlanGo mission.steps.length outcomes
    mission.steps mission.description 0
  let m1 := { mission with steps := t.1 }
  ({ m1 with results := some (generateBasicResults m1),
             status := MissionStatus.completed }, t.2)

/-! Comprehensive-phase synthesizer from research-pipeline.ts. -/

/-- ResearchPipeline.collectAllContent: the (step title, content, url)
blocks of completed steps whose results have nonempty content longer
than 100 characters. -/
def collectAllContent (steps : List ResearchStep) :
    List (String × String × String) :=
  steps.flatMap (fun step =>
    if step.status = StepStatus.completed ∧ step.results.isSome then
      (step.results.getD []).filterMap (fun r =>
        if r.content ≠ "" ∧ 100 < r.content.length then
          some (step.title, r.content, r.url)
        else none)
    else [])

/-- ResearchPipeline.generateSummary. The llm argument is the outcome
of the generateComprehensiveAnalysis call (the prompt the source builds
with createAnalysisPrompt is consumed opaquely by that call and not
modelled). With no content blocks it short-circuits to the
no-significant-findings message; on LLM success the summary is the
returned analysis text; on LLM failure the catch branch rebuilds the
basic summary without the trailer. -/
def generateSummary (mission : ResearchMission) (keyFindings : List String)
    (llm : Except String String) : List SummaryPart :=
  let allContent := collectAllContent mission.steps
  if allContent.length = 0 then [SummaryPart.noFindings mission.title]
  else
    match llm with
    | Except.ok response => [SummaryPart.comprehensive response]
    | Except.error _ =>
        let c := (mission.steps.filter
          (fun s => decide (s.status = StepStatus.completed))).length
        [SummaryPart.header mission.title,
         SummaryPart.completedLine c mission.steps.length]
          ++ (if 0 < keyFindings.length then
                SummaryPart.findingsHeader ::
                  keyFindings.enum.map (fun p => SummaryPart.findingLine (p.1 + 1) p.2)
              else [])

/-- Replacement of the first occurrence of a fragment, the embedding of
the JS String.replace call with a plain-string pattern (which replaces
only the first occurrence). -/
def replaceFirst (parts : List SummaryPart) (target repl : SummaryPart) :
    List SummaryPart :=
  match parts with
  | [] => []
  | p :: ps => if p = target then repl :: ps else p :: replaceFirst ps target repl

/-- Outcome of one generateComprehensiveSummaryAsync run: either the
try block ran to completion, carrying the outcome of the inner
generateComprehensiveAnalysis call, or an exception escaped the try
block (the only uncaught throw site is a throwing caller-supplied
callback) and the catch branch runs. -/
inductive AsyncOutcome
  | ok (llm : Except String String)
  | crashed
deriving DecidableEq, Repr

/-- ResearchPipeline.generateComprehensiveSummaryAsync: when the
mission has results, the try branch overwrites the summary with the
generateSummary outcome and clears the generating flag; the catch
branch replaces the first trailer fragment of the stored summary with
the failure notice and clears the flag as well. -/
def generateComprehensiveSummaryAsync (mission : ResearchMission)
    (o : AsyncOutcome) : ResearchMission :=
  match mission.results with
  | none => mission
  | some r =>
      match o with
      | AsyncOutcome.ok llm =>
          let keyFindings := extractKeyFindings mission.steps
          { mission with results := some ({ r with
              summary := generateSummary mission keyFindings llm,
              isGeneratingComprehensiveAnalysis := false }) }
      | AsyncOutcome.crashed =>
          { mission with results := some ({ r with
              summary := replaceFirst r.summary SummaryPart.trailer
                SummaryPart.failNotice,
              isGeneratingComprehensiveAnalysis := false }) }

/-! Orchestrator: the ResearchAgent class (startResearch). -/

/-- AgentState from types.ts (the progress percentage is a rational). -/
structure AgentState where
  currentMission : Option ResearchMission := none
  isProcessing : Bool
  error : Option String := none
  progress : ℚ
deriving DecidableEq, Repr

/-- The ResearchAgent: its state and its in-memory mission map,
embedded as an association list in insertion order. -/
structure ResearchAgent where
  state : AgentState
  missions : List (String × ResearchMission)
deriving DecidableEq, Repr

/-- Map.get of the mission store. -/
def missionsGet (missions : List (String × ResearchMission)) (id : String) :
    Option ResearchMission :=
  (missions.find? (fun p => decide (p.1 = id))).map (fun p => p.2)

/-- Map.set of the mission store: replaces the entry with the given key
or appends a new one. -/
def missionsSet (missions : List (String × ResearchMission)) (id : String)
    (m : ResearchMission) : List (String × ResearchMission) :=
  match missions with
  | [] => [(id, m)]
  | (k, v) :: rest =>
      if k = id then (id, m) :: rest else (k, v) :: missionsSet rest id m

/-- External outcomes of one ResearchAgent.startResearch run: the
planner provider outcome, the per-step search outcomes, and crash, which
is some message exactly when an exception escapes the try body. The
await calls inside the try never reject (planResearchSteps and
executeResearchPlan absorb their errors), so the only uncaught throw
site is a throwing caller-supplied onProgress callback; the model
places the crash at the first such site, the notification right after
planning. -/
structure StartOutcome where
  planProvider : Except String (List AIStep)
  stepOutcomes : Nat → StepOutcome
  crash : Option String

/-- ResearchAgent.startResearch. Guard failures (unknown mission id,
another mission already processing) throw before the try block, leaving
the agent unchanged. Otherwise the try body marks the agent processing,
plans the steps, executes the plan and stores the completed mission;
the catch branch marks the mission error, records the message and
rethrows; the finally block always clears isProcessing and
currentMission. Returns the settled promise value and the new agent. -/
def startResearch (agent : ResearchAgent) (missionId : String)
    (idGen : Nat → String) (o : StartOutcome) :
    Except String ResearchMission × ResearchAgent :=
  match missionsGet agent.missions missionId with
  | none =>
      (Except.error ("Mission with ID " ++ missionId ++ " not found"), agent)
  | some mission =>
      if agent.state.isProcessing then
        (Except.error "Another research mission is already in progress", agent)
      else
        let planned := { mission with
          status := MissionStatus.planning,
          steps := planResearchSteps idGen mission.description o.planProvider }
        match o.crash with
        | some msg =>
            let failed := { planned with status := MissionStatus.error }
            (Except.error msg,
             { state := { currentMission := none, isProcessing := false,
                          error := some msg, progress := 0 },
               missions := missionsSet agent.missions missionId failed })
        | none =>
            let researching := { planned with status := MissionStatus.researching }
            let completed := (executeResearchPlan researching o.stepOutcomes).1
            (Except.ok completed,
             { state := { currentMission := none, isProcessing := false,
                          error := none, progress := 100 },
               missions := missionsSet agent.missions missionId completed })

/-! Theorems. -/

/-- C7: generateComprehensiveAnalysis resolves with the fixed
placeholder string on an empty completion content instead of raising,
refuting the claim that it raises on empty content and never resolves
with substitute text: at the concrete input of a successful completion
with empty (or missing) content it resolves with the placeholder. -/
theorem claim_C7_counterexample :
    generateComprehensiveAnalysis (Except.ok (some ""))
        = Except.ok "No analysis generated" ∧
    generateComprehensiveAnalysis (Except.ok none)
        = Except.ok "No analysis generated" := by
  exact ⟨rfl, rfl⟩

/-- C7 (amended): generateComprehensiveAnalysis raises (with a fixed
message) exactly when the completion call itself fails; a successful
call with missing or empty content resolves with the placeholder text
and any other content is returned unchanged. -/
theorem claim_C7 :
    (∀ e : String, generateComprehensiveAnalysis (Except.error e)
        = Except.error "Failed to generate comprehensive analysis") ∧
    generateComprehensiveAnalysis (Except.ok none)
        = Except.ok "No analysis generated" ∧
    generateComprehensiveAnalysis (Except.ok (some ""))
        = Except.ok "No analysis generated" ∧
    (∀ s : String, s ≠ "" → generateComprehensiveAnalysis (Except.ok (some s))
        = Except.ok s) := by
  refine ⟨fun e => rfl, rfl, rfl, fun s hs => ?_⟩
  simp only [generateComprehensiveAnalysis, if_neg hs]

/-- C7 witness: the amended theorem applied at concrete inputs. -/
theorem claim_C7_witness :
    generateComprehensiveAnalysis (Except.error "boom")
        = Except.error "Failed to generate comprehensive analysis" ∧
    generateComprehensiveAnalysis (Except.ok (some "report"))
        = Except.ok "report" :=
  ⟨claim_C7.1 "boom", claim_C7.2.2.2 "report" (by decide)⟩

/-- C1: the planner does not treat an empty provider array as garbage:
planResearchSteps returns the empty list (not the 5-step fallback, and
not a non-empty list) when the provider call succeeds with an empty
array; moreover the fallback interpolates the topic only into the
first description, so the claim that every fallback description has
the topic interpolated fails on the second description. -/
theorem claim_C1_counterexample :
    planResearchSteps (fun _ => "id") "quantum" (Except.ok []) = [] ∧
    createFallbackSteps (fun _ => "id") "quantum" ≠ [] ∧
    ((createFallbackSteps (fun _ => "id") "quantum").map
        ResearchStep.description)[1]?
      = some "Conduct detailed analysis of key aspects" ∧
    strIncludes "Conduct detailed analysis of key aspects" "quantum" = false := by
  refine ⟨rfl, by decide, rfl, by decide⟩

/-- C1 (amended): planResearchSteps never raises and every returned
step is pending; when the provider call throws it returns exactly the
5-step fallback template (Foundation Research, Detailed Analysis,
Current Status, Expert Insights, Summary & Validation), whose first
description interpolates the topic; when the provider returns a list
it returns that list converted to pending steps, one for one, hence
the empty list for an empty provider array. -/
theorem claim_C1 (idGen : Nat → String) (T : String)
    (provider : Except String (List AIStep)) :
    (∀ s ∈ planResearchSteps idGen T provider, s.status = StepStatus.pending) ∧
    (∀ e, provider = Except.error e →
       planResearchSteps idGen T provider = createFallbackSteps idGen T ∧
       (planResearchSteps idGen T provider).length = 5 ∧
       (planResearchSteps idGen T provider).map ResearchStep.title
         = ["Foundation Research", "Detailed Analysis", "Current Status",
            "Expert Insights", "Summary & Validation"] ∧
       ((planResearchSteps idGen T provider).map ResearchStep.description).head?
         = some ("Research basic information and overview of " ++ T)) ∧
    (∀ l, provider = Except.ok l →
       (planResearchSteps idGen T provider).length = l.length) := by
  refine ⟨?_, ?_, ?_⟩
  · intro s hs
    cases provider with
    | ok l =>
        simp only [planResearchSteps, List.mem_map] at hs
        obtain ⟨p, _, rfl⟩ := hs
        rfl
    | error e =>
        simp only [planResearchSteps, createFallbackSteps, createStep,
          List.mem_cons, List.not_mem_nil, or_false] at hs
        rcases hs with rfl | rfl | rfl | rfl | rfl <;> rfl
  · intro e he
    subst he
    exact ⟨rfl, rfl, rfl, rfl⟩
  · intro l hl
    subst hl
    simp [planResearchSteps, List.enum_length]

/-- C1 witness: the amended theorem applied at a concrete provider
failure. -/
theorem claim_C1_witness :
    planResearchSteps (fun _ => "i") "t" (Except.error "down")
        = createFallbackSteps (fun _ => "i") "t" ∧
    (planResearchSteps (fun _ => "i") "t" (Except.error "down")).length = 5 := by
  have h := (claim_C1 (fun _ => "i") "t" (Except.error "down")).2.1 "down" rfl
  exact ⟨h.1, h.2.1⟩

/-- First sentence of length strictly between 50 and 200 characters,
written as direct recursion; used by the spec-words reformulation of
the key-finding extraction. -/
def firstMeaningful : List String → Option String
  | [] => none
  | s :: rest =>
      if 50 < s.length ∧ s.length < 200 then some s else firstMeaningful rest

/-- Key finding of one step, following the amended spec words: a
completed step with a nonempty result list whose top result has
nonempty content contributes the first sentence of the ". "-split
content of length strictly between 50 and 200 characters, prefixed by
the step title; any other step contributes nothing. -/
def keyFindingOfStep (step : ResearchStep) : Option String :=
  match step.status, step.results with
  | StepStatus.completed, some (top :: _) =>
      if top.content = "" then none
      else (firstMeaningful (jsSplit top.content ". ")).map
        (fun s => step.title ++ ": " ++ s)
  | _, _ => none

/-- Key-finding extraction following the amended spec words, one
finding per qualifying step in step order. -/
def extractKeyFindingsSpec (steps : List ResearchStep) : List String :=
  steps.filterMap keyFindingOfStep

/-- A sentence of exactly 50 ASCII characters, with no inner sentence
boundary. -/
def c8content : String := "aaaaaaaaaaaaaaaaaaaaaaaaaaaaaaaaaaaaaaaaaaaaaaaaaa"

/-- A completed step whose single result consists of c8content. -/
def c8step : ResearchStep :=
  { id := "s1", title := "Foundation Research", description := "d",
    status := StepStatus.completed,
    results := some [⟨"t", "u", c8content, 1, none⟩] }

/-- C8: the source selects sentences with length strictly greater than
50 and strictly less than 200, so a first qualifying sentence of
exactly 50 characters is not selected, refuting the inclusive range of
the claim: on a completed step whose top content is one 50-character
sentence, the inclusive-range selection of the claim picks that
sentence, yet extractKeyFindings emits no finding. -/
theorem claim_C8_counterexample :
    extractKeyFindings [c8step] = [] ∧
    c8content.length = 50 ∧
    (jsSplit c8content ". ").find?
        (fun s => decide (50 ≤ s.length ∧ s.length ≤ 200)) = some c8content := by
  refine ⟨by decide, by decide, by decide⟩

lemma firstMeaningful_eq_find (l : List String) :
    l.find? (fun s => decide (50 < s.length) && decide (s.length < 200))
      = firstMeaningful l := by
  induction l with
  | nil => rfl
  | cons s rest ih =>
      by_cases h : 50 < s.length ∧ s.length < 200
      · simp [List.find?, firstMeaningful, h.1, h.2]
      · rw [Classical.not_and_iff_or_not_not] at h
        rcases h with h | h <;> simp [List.find?, firstMeaningful, h, ih]

lemma keyFinding_pointwise (step : ResearchStep) :
    (if step.status = StepStatus.completed ∧ 0 < (step.results.getD []).length then
      match (step.results.getD []).head? with
      | some topResult =>
          if topResult.content ≠ "" then
            (meaningfulSentence topResult.content).map
              (fun s => step.title ++ ": " ++ s)
          else none
      | none => none
    else none) = keyFindingOfStep step := by
  rcases hres : step.results with _ | (_ | ⟨top, tail⟩) <;>
    cases hst : step.status <;>
      simp [keyFindingOfStep, hres, hst, meaningfulSentence,
        firstMeaningful_eq_find, ite_not]

/-- C8 (amended): extractKeyFindings takes, per completed step with
results whose top content is nonempty, the first sentence of the
". "-split content whose length lies strictly between 50 and 200
characters (exclusive bounds, so sentences of exactly 50 or exactly
200 characters are skipped), prefixed with the step title; this is
exactly the spec-words reformulation extractKeyFindingsSpec. -/
theorem claim_C8 (steps : List ResearchStep) :
    extractKeyFindings steps = extractKeyFindingsSpec steps := by
  induction steps with
  | nil => rfl
  | cons step rest ih =>
      simp only [extractKeyFindings, extractKeyFindingsSpec,
        List.filterMap_cons] at ih ⊢
      rw [keyFinding_pointwise, ih]

lemma removeDupGo_mem_find (l : List SearchResult) :
    ∀ (seen : List String), ∀ r ∈ removeDupGo seen l,
      r.url ∉ seen ∧ l.find? (fun x => decide (x.url = r.url)) = some r := by
  induction l with
  | nil => intro seen r hr; simp [removeDupGo] at hr
  | cons x l ih =>
      intro seen r hr
      by_cases hx : x.url ∈ seen
      · rw [removeDupGo, if_pos hx] at hr
        obtain ⟨hns, hfind⟩ := ih seen r hr
        refine ⟨hns, ?_⟩
        have hne : decide (x.url = r.url) = false := by
          simp only [decide_eq_false_iff_not]
          intro hc
          exact hns (hc ▸ hx)
        rw [List.find?, hne, hfind]
      · rw [removeDupGo, if_neg hx] at hr
        rcases List.mem_cons.mp hr with rfl | hr
        · refine ⟨hx, ?_⟩
          rw [List.find?, decide_eq_true rfl]
        · obtain ⟨hns, hfind⟩ := ih (x.url :: seen) r hr
          have hnx : r.url ≠ x.url := fun hc => hns (by rw [hc]; exact List.mem_cons_self _ _)
          have hns2 : r.url ∉ seen := fun hc => hns (List.mem_cons_of_mem _ hc)
          refine ⟨hns2, ?_⟩
          have hne : decide (x.url = r.url) = false := by
            simp only [decide_eq_false_iff_not]
            exact fun hc => hnx hc.symm
          rw [List.find?, hne, hfind]

lemma removeDupGo_nodup (l : List SearchResult) :
    ∀ (seen : List String),
      ((removeDupGo seen l).map SearchResult.url).Nodup := by
  induction l with
  | nil => intro seen; simp [removeDupGo]
  | cons x l ih =>
      intro seen
      by_cases hx : x.url ∈ seen
      · rw [removeDupGo, if_pos hx]; exact ih seen
      · rw [removeDupGo, if_neg hx]
        simp only [List.map_cons, List.nodup_cons]
        refine ⟨?_, ih (x.url :: seen)⟩
        intro hmem
        obtain ⟨r, hr, hurl⟩ := List.mem_map.mp hmem
        have := (removeDupGo_mem_find l (x.url :: seen) r hr).1
        exact this (hurl ▸ List.mem_cons_self _ _)

/-- C4: generateBasicResults dedups the aggregated step results by URL
keeping the first occurrence in step order, and caps sources at 20:
the source URLs are pairwise distinct, every retained source is the
first aggregated result carrying its URL, and at most 20 sources are
retained. -/
theorem claim_C4 (mission : ResearchMission) :
    ((generateBasicResults mission).sources.map SearchResult.url).Nodup ∧
    (∀ r ∈ (generateBasicResults mission).sources,
       (aggregatedResults mission.steps).find?
         (fun x => decide (x.url = r.url)) = some r) ∧
    (generateBasicResults mission).sources.length ≤ 20 := by
  have hsrc : (generateBasicResults mission).sources
      = (removeDuplicateResults (aggregatedResults mission.steps)).take 20 := rfl
  refine ⟨?_, ?_, ?_⟩
  · rw [hsrc]
    have h := removeDupGo_nodup (aggregatedResults mission.steps) []
    have hsub : List.Sublist
        (((removeDuplicateResults (aggregatedResults mission.steps)).take 20).map
          SearchResult.url)
        ((removeDuplicateResults (aggregatedResults mission.steps)).map
          SearchResult.url) := (List.take_sublist _ _).map _
    exact hsub.nodup h
  · intro r hr
    rw [hsrc] at hr
    have hr2 : r ∈ removeDuplicateResults (aggregatedResults mission.steps) :=
      List.take_subset _ _ hr
    exact (removeDupGo_mem_find (aggregatedResults mission.steps) [] r hr2).2
  · rw [hsrc]
    exact List.length_take_le 20 (removeDuplicateResults (aggregatedResults mission.steps))

/-- A result at a URL that appears twice across the witness mission. -/
def c4r1 : SearchResult := ⟨"R1", "https://a.example", "content one", 1, none⟩

/-- A result at a second URL. -/
def c4r2 : SearchResult := ⟨"R2", "https://b.example", "content two", 1, none⟩

/-- A later result reusing the first URL. -/
def c4r1dup : SearchResult := ⟨"R1 dup", "https://a.example", "other content", 1, none⟩

/-- A mission whose aggregated results contain a duplicate URL. -/
def c4mission : ResearchMission :=
  { id := "m", title := "t", description := "d",
    status := MissionStatus.pending,
    steps :=
      [ { id := "s1", title := "A", description := "da",
          status := StepStatus.completed, results := some [c4r1, c4r2] },
        { id := "s2", title := "B", description := "db",
          status := StepStatus.completed, results := some [c4r1dup] } ] }

/-- C4 witness: the dedup theorem applied to a concrete mission with a
duplicate URL. -/
theorem claim_C4_witness :
    ((generateBasicResults c4mission).sources.map SearchResult.url).Nodup ∧
    (aggregatedResults c4mission.steps).find?
        (fun x => decide (x.url = c4r1.url)) = some c4r1 ∧
    (generateBasicResults c4mission).sources.length ≤ 20 := by
  have h := claim_C4 c4mission
  exact ⟨h.1, h.2.1 c4r1 (by decide), h.2.2⟩

/-- C9: the rate limiter records the entry timestamp after pruning
entries outside the window, and when the retained count reaches
maxRequests it sleeps for the window length minus the age of the
oldest retained timestamp; consequently, with maxRequests 2 and a
1000 ms window, the third of three back-to-back calls returns no
earlier than 1000 ms after the first recorded timestamp. -/
theorem claim_C9 :
    (∀ (maxR : Nat) (W : Int) (reqs : List Int) (now : Int), 1 ≤ maxR →
       (waitIfNeeded maxR W reqs now).1
         = reqs.filter (fun t => decide (now - t < W)) ++ [now] ∧
       (maxR ≤ (reqs.filter (fun t => decide (now - t < W))).length →
          (waitIfNeeded maxR W reqs now).2
            = W - (now - (reqs.filter (fun t => decide (now - t < W))).headD 0))) ∧
    (∀ t1 t2 t3 : Int, t1 ≤ t2 → t2 ≤ t3 → t3 - t1 < 1000 →
       t1 + 1000 ≤ t3 + (waitIfNeeded 2 1000
           ((waitIfNeeded 2 1000 ((waitIfNeeded 2 1000 [] t1).1) t2).1) t3).2) := by
  constructor
  · intro maxR W reqs now hmax
    constructor
    · rfl
    · intro hlen
      have hne : reqs.filter (fun t => decide (now - t < W)) ≠ [] := by
        intro hc
        rw [hc] at hlen
        simp only [List.length_nil] at hlen
        omega
      obtain ⟨a, l2, ha⟩ := List.exists_cons_of_ne_nil hne
      have hamem : a ∈ reqs.filter (fun t => decide (now - t < W)) := by
        rw [ha]; exact List.mem_cons_self a l2
      have ha2 : now - a < W := of_decide_eq_true ((List.mem_filter.mp hamem).2)
      have hpos : (0 : ℤ) < W - (now - a) := by omega
      show (waitIfNeeded maxR W reqs now).2
        = W - (now - (reqs.filter (fun t => decide (now - t < W))).headD 0)
      simp only [waitIfNeeded, ha, List.headD_cons, ge_iff_le]
      rw [if_pos (ha ▸ hlen), if_pos (by omega : (0:ℤ) < W - (now - a))]
  · intro t1 t2 t3 h12 h23 h31
    have d21 : decide (t2 - t1 < 1000) = true := decide_eq_true (by omega)
    have d31 : decide (t3 - t1 < 1000) = true := decide_eq_true h31
    have d32 : decide (t3 - t2 < 1000) = true := decide_eq_true (by omega)
    have e1 : (waitIfNeeded 2 1000 [] t1).1 = [t1] := rfl
    have e2 : (waitIfNeeded 2 1000 [t1] t2).1 = [t1, t2] := by
      simp [waitIfNeeded, d21]
    have hpos : (0 : ℤ) < 1000 - (t3 - t1) := by omega
    have e3 : (waitIfNeeded 2 1000 [t1, t2] t3).2 = 1000 - (t3 - t1) := by
      simp [waitIfNeeded, d31, d32, hpos]
    rw [e1, e2, e3]
    omega

/-- C9 witness: the theorem applied at three immediate calls at time 0,
and the general sleep formula at a concrete saturated state. -/
theorem claim_C9_witness :
    ((0 : ℤ) + 1000 ≤ 0 + (waitIfNeeded 2 1000
        ((waitIfNeeded 2 1000 ((waitIfNeeded 2 1000 [] 0).1) 0).1) 0).2) ∧
    (waitIfNeeded 2 1000 [0, 0] 0).2
      = 1000 - (0 - (([0, 0] : List ℤ).filter
          (fun t => decide ((0 : ℤ) - t < 1000))).headD 0) :=
  ⟨claim_C9.2 0 0 0 le_rfl le_rfl (by decide),
   (claim_C9.1 2 1000 [0, 0] 0 (by decide)).2 (by decide)⟩

lemma searchWithRetryGo_calls_le (attempts : Nat → Except String OpenAISearchResponse)
    (maxRetries : Nat) :
    ∀ (fuel attempt : Nat) (le : Option String),
      (searchWithRetryGo attempts maxRetries attempt fuel le).calls ≤ fuel := by
  intro fuel
  induction fuel with
  | zero => intro attempt le; simp [searchWithRetryGo]
  | succ fuel ih =>
      intro attempt le
      cases h : attempts attempt with
      | ok r => simp [searchWithRetryGo, h]
      | error e =>
          by_cases hm : attempt = maxRetries
          · subst hm
            simp [searchWithRetryGo, h]
          · have hrec := ih (attempt + 1) (some e)
            simp [searchWithRetryGo, h, hm]
            omega

lemma searchWithRetryGo_success (attempts : Nat → Except String OpenAISearchResponse)
    (maxRetries : Nat) :
    ∀ (fuel attempt : Nat) (le : Option String) (k : Nat) (r : OpenAISearchResponse),
      attempt ≤ k → k ≤ maxRetries → attempt + fuel = maxRetries + 1 →
      (∀ j, attempt ≤ j → j < k → ∃ e, attempts j = Except.error e) →
      attempts k = Except.ok r →
      searchWithRetryGo attempts maxRetries attempt fuel le
        = ⟨Except.ok r, k + 1 - attempt,
           (List.range (k - attempt)).map (fun i => 2 ^ (attempt + i) * 1000)⟩ := by
  intro fuel
  induction fuel with
  | zero => intro attempt le k r hak hkM hsum hfail hk; omega
  | succ fuel ih =>
      intro attempt le k r hak hkM hsum hfail hk
      rcases Nat.eq_or_lt_of_le hak with rfl | hlt
      · simp [searchWithRetryGo, hk, Nat.add_sub_cancel_left, Nat.sub_self]
      · obtain ⟨e, he⟩ := hfail attempt le_rfl hlt
        have hm : attempt ≠ maxRetries := by omega
        have hrec := ih (attempt + 1) (some e) k r (by omega) hkM (by omega)
          (fun j hj1 hj2 => hfail j (by omega) hj2) hk
        simp only [searchWithRetryGo, he, hm, if_neg, ite_false, hrec]
        refine congrArg₂ _ ?_ ?_
        · omega
        · have hka : k - attempt = (k - (attempt + 1)) + 1 := by omega
          rw [hka, List.range_succ_eq_map, List.map_cons, List.map_map]
          simp [Function.comp, Nat.add_assoc, Nat.add_comm, Nat.add_left_comm]

lemma searchWithRetryGo_all_fail (attempts : Nat → Except String OpenAISearchResponse)
    (maxRetries : Nat) :
    ∀ (fuel attempt : Nat) (le : Option String) (e : String),
      1 ≤ attempt → attempt ≤ maxRetries → attempt + fuel = maxRetries + 1 →
      (∀ j, attempt ≤ j → j ≤ maxRetries → ∃ e2, attempts j = Except.error e2) →
      attempts maxRetries = Except.error e →
      searchWithRetryGo attempts maxRetries attempt fuel le
        = ⟨Except.error e, maxRetries + 1 - attempt,
           (List.range (maxRetries - attempt)).map (fun i => 2 ^ (attempt + i) * 1000)⟩ := by
  intro fuel
  induction fuel with
  | zero => intro attempt le e h1 hM hsum hfail hlast; omega
  | succ fuel ih =>
      intro attempt le e h1 hM hsum hfail hlast
      by_cases hm : attempt = maxRetries
      · subst hm
        simp [searchWithRetryGo, hlast, Nat.add_sub_cancel_left, Nat.sub_self]
      · obtain ⟨e2, he2⟩ := hfail attempt le_rfl hM
        have hrec := ih (attempt + 1) (some e2) e (by omega) (by omega) (by omega)
          (fun j hj1 hj2 => hfail j (by omega) hj2) hlast
        simp only [searchWithRetryGo, he2, hm, if_neg, ite_false, hrec]
        refine congrArg₂ _ ?_ ?_
        · omega
        · have hka : maxRetries - attempt = (maxRetries - (attempt + 1)) + 1 := by omega
          rw [hka, List.range_succ_eq_map, List.map_cons, List.map_map]
          simp [Function.comp, Nat.add_assoc, Nat.add_comm, Nat.add_left_comm]

/-- C5: searchWithRetry invokes search at most maxRetries times; when
the attempts 1..k-1 fail and attempt k (k at most maxRetries) succeeds
with response r, it returns r after exactly k calls, having slept
2 ^ 1, ..., 2 ^ (k - 1) seconds (in milliseconds) between consecutive
failed attempts; when every attempt up to maxRetries fails it makes
exactly maxRetries calls, re-raises the error of the last attempt and
slept 2 ^ 1, ..., 2 ^ (maxRetries - 1) seconds between consecutive
failed attempts. -/
theorem claim_C5 (attempts : Nat → Except String OpenAISearchResponse)
    (maxRetries : Nat) :
    (searchWithRetry attempts maxRetries).calls ≤ maxRetries ∧
    (∀ (k : Nat) (r : OpenAISearchResponse), 1 ≤ k → k ≤ maxRetries →
       (∀ j, 1 ≤ j → j < k → ∃ e, attempts j = Except.error e) →
       attempts k = Except.ok r →
       searchWithRetry attempts maxRetries
         = ⟨Except.ok r, k,
            (List.range (k - 1)).map (fun i => 2 ^ (1 + i) * 1000)⟩) ∧
    (∀ e : String, 1 ≤ maxRetries →
       (∀ j, 1 ≤ j → j ≤ maxRetries → ∃ e2, attempts j = Except.error e2) →
       attempts maxRetries = Except.error e →
       searchWithRetry attempts maxRetries
         = ⟨Except.error e, maxRetries,
            (List.range (maxRetries - 1)).map (fun i => 2 ^ (1 + i) * 1000)⟩) := by
  refine ⟨searchWithRetryGo_calls_le attempts maxRetries maxRetries 1 none, ?_, ?_⟩
  · intro k r hk1 hkM hfail hk
    have h := searchWithRetryGo_success attempts maxRetries maxRetries 1 none k r
      hk1 hkM (by omega) hfail hk
    simpa [searchWithRetry] using h
  · intro e hM hfail hlast
    have h := searchWithRetryGo_all_fail attempts maxRetries maxRetries 1 none e
      le_rfl hM (by omega) hfail hlast
    simpa [searchWithRetry] using h

/-- Attempt outcomes where every attempt fails, for the C5 witness. -/
def c5attempts : Nat → Except String OpenAISearchResponse :=
  fun j => if j = 1 then Except.error "e1"
    else if j = 2 then Except.error "e2" else Except.error "e3"

/-- C5 witness: with 3 attempts all failing, searchWithRetry makes 3
calls, re-raises the third error, and slept 2000 ms then 4000 ms. -/
theorem claim_C5_witness :
    searchWithRetry c5attempts 3 = ⟨Except.error "e3", 3, [2000, 4000]⟩ := by
  have h := (claim_C5 c5attempts 3).2.2 "e3"
    (by decide)
    (by intro j h1 h2; interval_cases j <;> exact ⟨_, rfl⟩)
    rfl
  rw [h]
  decide

lemma executeResearchPlanGo_length (total : Nat) (outcomes : Nat → StepOutcome) :
    ∀ (steps : List ResearchStep) (context : String) (i : Nat),
      (executeResearchPlanGo total outcomes steps context i).1.length = steps.length := by
  intro steps
  induction steps with
  | nil => intro context i; rfl
  | cons step rest ih =>
      intro context i
      cases h : outcomes i with
      | success rs => simp [executeResearchPlanGo, executeStep, h, ih]
      | failure msg => simp [executeResearchPlanGo, executeStep, h, ih]

lemma executeResearchPlanGo_get (total : Nat) (outcomes : Nat → StepOutcome) :
    ∀ (steps : List ResearchStep) (context : String) (i j : Nat) (s : ResearchStep),
      (executeResearchPlanGo total outcomes steps context i).1[j]? = some s →
      (∀ msg, outcomes (i + j) = StepOutcome.failure msg →
         s.status = StepStatus.error ∧ s.error = some msg) ∧
      (∀ rs, outcomes (i + j) = StepOutcome.success rs →
         s.status = StepStatus.completed ∧ s.results = some rs) := by
  intro steps
  induction steps with
  | nil =>
      intro context i j s hs
      simp [executeResearchPlanGo] at hs
  | cons step rest ih =>
      intro context i j s hs
      cases h : outcomes i with
      | success rs =>
          simp only [executeResearchPlanGo, executeStep, h] at hs
          cases j with
          | zero =>
              rw [List.getElem?_cons_zero] at hs
              injection hs with hs
              subst hs
              constructor
              · intro msg hmsg
                rw [Nat.add_zero, h] at hmsg
                cases hmsg
              · intro rs2 hrs2
                rw [Nat.add_zero, h] at hrs2
                injection hrs2 with hrs2
                subst hrs2
                exact ⟨rfl, rfl⟩
          | succ j =>
              rw [List.getElem?_cons_succ] at hs
              have := ih _ (i + 1) j s hs
              rwa [Nat.add_assoc, Nat.add_comm 1 j] at this
      | failure msg0 =>
          simp only [executeResearchPlanGo, executeStep, h] at hs
          cases j with
          | zero =>
              rw [List.getElem?_cons_zero] at hs
              injection hs with hs
              subst hs
              constructor
              · intro msg hmsg
                rw [Nat.add_zero, h] at hmsg
                injection hmsg with hmsg
                subst hmsg
                exact ⟨rfl, rfl⟩
              · intro rs2 hrs2
                rw [Nat.add_zero, h] at hrs2
                cases hrs2
          | succ j =>
              rw [List.getElem?_cons_succ] at hs
              have := ih _ (i + 1) j s hs
              rwa [Nat.add_assoc, Nat.add_comm 1 j] at this

/-- C2: executeResearchPlan preserves the step count, always marks the
mission completed with a results object attached, and a failed step
remains in status error (carrying its message) without aborting the
run, while successful steps are completed with their results. -/
theorem claim_C2 (mission : ResearchMission) (outcomes : Nat → StepOutcome) :
    (executeResearchPlan mission outcomes).1.steps.length = mission.steps.length ∧
    (executeResearchPlan mission outcomes).1.status = MissionStatus.completed ∧
    (executeResearchPlan mission outcomes).1.results.isSome = true ∧
    (∀ (i : Nat) (s : ResearchStep),
       (executeResearchPlan mission outcomes).1.steps[i]? = some s →
       (∀ msg, outcomes i = StepOutcome.failure msg →
          s.status = StepStatus.error ∧ s.error = some msg) ∧
       (∀ rs, outcomes i = StepOutcome.success rs →
          s.status = StepStatus.completed ∧ s.results = some rs)) := by
  refine ⟨?_, rfl, rfl, ?_⟩
  · exact executeResearchPlanGo_length mission.steps.length outcomes
      mission.steps mission.description 0
  · intro i s hs
    have h := executeResearchPlanGo_get mission.steps.length outcomes
      mission.steps mission.description 0 i s hs
    rwa [Nat.zero_add] at h

/-- A one-step mission for the C6 counterexample. -/
def c6mission : ResearchMission :=
  { id := "m6", title := "t6", description := "dd",
    status := MissionStatus.researching,
    steps := [ { id := "x", title := "X", description := "dx",
                 status := StepStatus.pending } ] }

/-- Step outcomes where every step fails, for the C6 counterexample. -/
def c6outcomes : Nat → StepOutcome := fun _ => StepOutcome.failure "boom"

/-- A two-step mission for the C2 and C6 witnesses. -/
def c2mission : ResearchMission :=
  { id := "m2", title := "t2", description := "desc",
    status := MissionStatus.researching,
    steps :=
      [ { id := "a", title := "T1", description := "d1",
          status := StepStatus.pending },
        { id := "b", title := "T2", description := "d2",
          status := StepStatus.pending } ] }

/-- Step outcomes where the first step fails and the second succeeds. -/
def c2outcomes : Nat → StepOutcome :=
  fun n => if n = 0 then StepOutcome.failure "netfail"
    else StepOutcome.success [c4r2]

/-- The first output step of the C2 witness run: mutated in place to
executing with its query, then marked error by the catch branch. -/
def c2step0post : ResearchStep :=
  { id := "a", title := "T1", description := "d1",
    query := some "d1 desc", status := StepStatus.error,
    error := some "netfail" }

/-- C2 witness: the theorem applied to a concrete run with one failing
and one succeeding step. -/
theorem claim_C2_witness :
    (executeResearchPlan c2mission c2outcomes).1.steps.length
        = c2mission.steps.length ∧
    (executeResearchPlan c2mission c2outcomes).1.status
        = MissionStatus.completed ∧
    c2step0post.status = StepStatus.error ∧
    c2step0post.error = some "netfail" := by
  have h := claim_C2 c2mission c2outcomes
  have h4 := (h.2.2.2 0 c2step0post (by decide)).1 "netfail" rfl
  exact ⟨h.1, h.2.1, h4.1, h4.2⟩

/-- Callback invocations following the amended spec words: one
onStepComplete invocation per step that ended completed, in step
order, with progress (index + 1) / total * 100; steps that ended in
error produce no invocation. -/
def callbackInvocationsSpec (total : Nat) :
    List ResearchStep → Nat → List CallbackEvent
  | [], _ => []
  | s :: rest, i =>
      if s.status = StepStatus.completed then
        ⟨s, ((i : ℚ) + 1) / (total : ℚ) * 100⟩
          :: callbackInvocationsSpec total rest (i + 1)
      else callbackInvocationsSpec total rest (i + 1)

lemma executeResearchPlanGo_events (total : Nat) (outcomes : Nat → StepOutcome) :
    ∀ (steps : List ResearchStep) (context : String) (i : Nat),
      (executeResearchPlanGo total outcomes steps context i).2
        = callbackInvocationsSpec total
            (executeResearchPlanGo total outcomes steps context i).1 i := by
  intro steps
  induction steps with
  | nil => intro context i; rfl
  | cons step rest ih =>
      intro context i
      cases h : outcomes i with
      | success rs =>
          simp [executeResearchPlanGo, executeStep, h, callbackInvocationsSpec, ih]
      | failure msg =>
          simp [executeResearchPlanGo, executeStep, h, callbackInvocationsSpec, ih]

/-- C6: a one-step mission whose only step fails yields zero
onStepComplete invocations even though the step ended in status error,
refuting the claim that the callback is invoked exactly once per step
including error steps. -/
theorem claim_C6_counterexample :
    (executeResearchPlan c6mission c6outcomes).2 = [] ∧
    (executeResearchPlan c6mission c6outcomes).1.steps.length = 1 ∧
    ((executeResearchPlan c6mission c6outcomes).1.steps.map ResearchStep.status)
      = [StepStatus.error] := by
  refine ⟨by decide, by decide, by decide⟩

/-- C6 (amended): in executeResearchPlan the onStepComplete callback is
invoked exactly once per step that completes successfully, in step
order, with progress (index + 1) / total * 100; a step whose execution
fails is caught before the progress computation, so error steps
produce no invocation. -/
theorem claim_C6 (mission : ResearchMission) (outcomes : Nat → StepOutcome) :
    (executeResearchPlan mission outcomes).2
      = callbackInvocationsSpec mission.steps.length
          (executeResearchPlan mission outcomes).1.steps 0 :=
  executeResearchPlanGo_events mission.steps.length outcomes
    mission.steps mission.description 0

lemma replaceFirst_append_trailer (pre : List SummaryPart)
    (h : SummaryPart.trailer ∉ pre) :
    replaceFirst (pre ++ [SummaryPart.trailer]) SummaryPart.trailer
        SummaryPart.failNotice
      = pre ++ [SummaryPart.failNotice] := by
  induction pre with
  | nil => simp [replaceFirst]
  | cons p ps ih =>
      simp only [List.mem_cons, not_or] at h
      rw [List.cons_append, replaceFirst,
        if_neg (fun hc => h.1 hc.symm), ih h.2, List.cons_append]

lemma generateBasicSummary_split (m : ResearchMission) (kf : List String) :
    ∃ pre, generateBasicSummary m kf = pre ++ [SummaryPart.trailer] ∧
      SummaryPart.trailer ∉ pre := by
  refine ⟨[SummaryPart.header m.title,
      SummaryPart.completedLine
        ((m.steps.filter (fun s => decide (s.status = StepStatus.completed))).length)
        m.steps.length]
      ++ (if 0 < kf.length then
            SummaryPart.findingsHeader ::
              kf.enum.map (fun p => SummaryPart.findingLine (p.1 + 1) p.2)
          else []), ?_, ?_⟩
  · rw [generateBasicSummary, List.append_assoc]
  · by_cases hk : 0 < kf.length <;> simp [hk, List.mem_map]

lemma trailer_not_mem_generateSummary (m : ResearchMission) (kf : List String)
    (llm : Except String String) :
    SummaryPart.trailer ∉ generateSummary m kf llm := by
  unfold generateSummary
  by_cases h : (collectAllContent m.steps).length = 0
  · simp [h]
  · cases llm with
    | ok r => simp [h]
    | error e =>
        by_cases hk : 0 < kf.length <;>
          simp [h, hk, List.mem_append, List.mem_cons, List.mem_map]

/-- C3: immediately after executeResearchPlan the mission is completed
and its results carry isGeneratingComprehensiveAnalysis = true; after
generateComprehensiveSummaryAsync settles (LLM success, LLM failure,
or a crash of the async body), the flag is false and the summary no
longer contains the generating-comprehensive-analysis trailer. -/
theorem claim_C3 (mission : ResearchMission) (outcomes : Nat → StepOutcome)
    (o : AsyncOutcome) :
    (∃ r, (executeResearchPlan mission outcomes).1.results = some r ∧
       r.isGeneratingComprehensiveAnalysis = true) ∧
    (executeResearchPlan mission outcomes).1.status = MissionStatus.completed ∧
    (∃ r2, (generateComprehensiveSummaryAsync
         (executeResearchPlan mission outcomes).1 o).results = some r2 ∧
       r2.isGeneratingComprehensiveAnalysis = false ∧
       SummaryPart.trailer ∉ r2.summary) := by
  refine ⟨⟨_, rfl, rfl⟩, rfl, ?_⟩
  cases o with
  | ok llm =>
      exact ⟨_, rfl, rfl, trailer_not_mem_generateSummary _ _ llm⟩
  | crashed =>
      refine ⟨_, rfl, rfl, ?_⟩
      obtain ⟨pre, hpre, hnot⟩ := generateBasicSummary_split
        { mission with steps :=
            (executeResearchPlanGo mission.steps.length outcomes
              mission.steps mission.description 0).1 }
        (extractKeyFindings
          (executeResearchPlanGo mission.steps.length outcomes
            mission.steps mission.description 0).1)
      show SummaryPart.trailer ∉ replaceFirst _ _ _
      rw [show (generateBasicResults { mission with steps :=
            (executeResearchPlanGo mission.steps.length outcomes
              mission.steps mission.description 0).1 }).summary
          = generateBasicSummary { mission with steps :=
              (executeResearchPlanGo mission.steps.length outcomes
                mission.steps mission.description 0).1 }
              (extractKeyFindings
                (executeResearchPlanGo mission.steps.length outcomes
                  mission.steps mission.description 0).1) from rfl,
        hpre, replaceFirst_append_trailer pre hnot]
      simp [List.mem_append, hnot]

lemma missionsGet_missionsSet (missions : List (String × ResearchMission))
    (id : String) (m : ResearchMission) :
    missionsGet (missionsSet missions id m) id = some m := by
  induction missions with
  | nil => simp [missionsSet, missionsGet, List.find?]
  | cons p rest ih =>
      by_cases hp : p.1 = id
      · rw [show (p : String × ResearchMission) = (p.1, p.2) from rfl, missionsSet,
          if_pos hp]
        simp [missionsGet, List.find?]
      · rw [show (p : String × ResearchMission) = (p.1, p.2) from rfl, missionsSet,
          if_neg hp]
        rw [missionsGet, List.find?]
        rw [show decide ((p.1, p.2).1 = id) = false from decide_eq_false hp]
        exact ih

/-- C10: when startResearch proceeds past its entry guards (mission
found, no mission processing), the settled run always leaves the agent
with isProcessing = false and no currentMission (so a later call is
never rejected by the already-in-progress guard on account of this
run); on rejection the stored mission has status error, and on
resolution the returned mission is completed. -/
theorem claim_C10 (agent : ResearchAgent) (missionId : String)
    (idGen : Nat → String) (o : StartOutcome)
    (hfound : (missionsGet agent.missions missionId).isSome = true)
    (hidle : agent.state.isProcessing = false) :
    (startResearch agent missionId idGen o).2.state.isProcessing = false ∧
    (startResearch agent missionId idGen o).2.state.currentMission = none ∧
    (∀ e, (startResearch agent missionId idGen o).1 = Except.error e →
       ∃ m, missionsGet (startResearch agent missionId idGen o).2.missions missionId
           = some m ∧ m.status = MissionStatus.error) ∧
    (∀ m, (startResearch agent missionId idGen o).1 = Except.ok m →
       m.status = MissionStatus.completed) := by
  rcases hm : missionsGet agent.missions missionId with _ | mission
  · rw [hm] at hfound; cases hfound
  · rcases hcr : o.crash with _ | msg
    · simp only [startResearch, hm, hidle, hcr, Bool.false_eq_true, if_false]
      refine ⟨trivial, trivial, ?_, ?_⟩
      · intro e he; cases he
      · intro m hmk
        injection hmk with hmk
        subst hmk
        rfl
    · simp only [startResearch, hm, hidle, hcr, Bool.false_eq_true, if_false]
      refine ⟨trivial, trivial, ?_, ?_⟩
      · intro e he
        exact ⟨_, missionsGet_missionsSet agent.missions missionId _, rfl⟩
      · intro m hmk; cases hmk

/-- The stored mission of the C10 witness agent. -/
def c10mission : ResearchMission :=
  { id := "m10", title := "t10", description := "d10",
    status := MissionStatus.pending, steps := [] }

/-- An idle agent holding one mission, for the C10 witness. -/
def c10agent : ResearchAgent :=
  { state := { isProcessing := false, progress := 0 },
    missions := [("m10", c10mission)] }

/-- Outcomes for the C10 witness run: the async body crashes. -/
def c10outcome : StartOutcome :=
  { planProvider := Except.error "planner down",
    stepOutcomes := fun _ => StepOutcome.failure "search down",
    crash := some "callback threw" }

/-- C10 witness: the theorem applied to a concrete crashed run. -/
theorem claim_C10_witness :
    (startResearch c10agent "m10" (fun _ => "i") c10outcome).2.state.isProcessing
        = false ∧
    (startResearch c10agent "m10" (fun _ => "i") c10outcome).2.state.currentMission
        = none ∧
    (∃ m, missionsGet
        (startResearch c10agent "m10" (fun _ => "i") c10outcome).2.missions "m10"
        = some m ∧ m.status = MissionStatus.error) := by
  have h := claim_C10 c10agent "m10" (fun _ => "i") c10outcome (by decide) rfl
  exact ⟨h.1, h.2.1, h.2.2.1 "callback threw" rfl⟩

end DeepResearch
